import Mathlib

/-!
Shallow embedding of the Real-Estate-Research-Assistant repository
(validators, configuration constants, and the RAG orchestration service)
together with theorems settling the claims about its specification.
-/

namespace RAGRepo

/-! ### Exception model

Embeds `real_estate_assistant/utils/exceptions.py`: every exception class
derives from `Exception`; `str(e)` is the message the constructor received.
`otherError` stands for any exception that is none of the repository's own
classes (e.g. a library error). -/

inductive Exc where
  | urlProcessingError (m : String)
  | vectorStoreError (m : String)
  | llmError (m : String)
  | validationError (m : String)
  | otherError (m : String)
deriving DecidableEq

/-- `str(e)` of an exception: the message it carries. -/
def Exc.msg : Exc → String
  | .urlProcessingError m => m
  | .vectorStoreError m => m
  | .llmError m => m
  | .validationError m => m
  | .otherError m => m

/-- `isinstance(e, URLProcessingError)` -/
def Exc.isURLProcessing : Exc → Bool
  | .urlProcessingError _ => true
  | _ => false

/-- `isinstance(e, VectorStoreError)` -/
def Exc.isVectorStore : Exc → Bool
  | .vectorStoreError _ => true
  | _ => false

/-- `isinstance(e, LLMError)` -/
def Exc.isLLM : Exc → Bool
  | .llmError _ => true
  | _ => false

/-! ### Configuration constants from `src/config.py` -/

def MAX_URLS_PER_REQUEST : Nat := 10
def MAX_QUERY_LENGTH : Nat := 500
def CHUNK_SIZE : Nat := 1000
def CHUNK_OVERLAP : Nat := 200

/-! ### URL parsing

Model of the `scheme`/`netloc` fields of `urllib.parse.urlparse`, the only
fields `validate_url` reads: a scheme is a non-empty leading run of
letters, digits and `+`/`-`/`.` starting with a letter and terminated by the
first colon; the netloc is what follows a leading `//` of the remainder, up
to the next `/`, `?` or `#`. -/

structure ParsedUrl where
  scheme : String
  netloc : String
deriving DecidableEq

/-- Characters allowed in a URL scheme. -/
def schemeChar (c : Char) : Bool := c.isAlpha || c.isDigit || c = '+' || c = '-' || c = '.'

def urlparse (url : String) : ParsedUrl :=
  let cs := url.data
  let p : List Char × List Char :=
    match cs.findIdx? (fun c => c = ':') with
    | some i =>
      let before := cs.take i
      if 0 < i && (match before with | c :: _ => c.isAlpha | [] => false) && before.all schemeChar
      then (before.map Char.toLower, cs.drop (i + 1))
      else ([], cs)
    | none => ([], cs)
  let netloc : List Char :=
    if p.2.take 2 = ['/', '/'] then
      (p.2.drop 2).takeWhile (fun c => !(c = '/' || c = '?' || c = '#'))
    else []
  ⟨String.mk p.1, String.mk netloc⟩

/-! ### Validators from `src/utils/validators.py` -/

/-- A single quote character, used inside error messages. -/
def sq : String := String.mk [Char.ofNat 39]

/-- Embeds `validate_url`: the inner `ValidationError`s raised inside the
`try` block are caught by the function's own `except Exception` clause and
re-wrapped, so the observable message is always the wrapped one. -/
def validate_url (url : String) : Except Exc Bool :=
  if (urlparse url).scheme = "" ∨ (urlparse url).netloc = "" then
    .error (.validationError ("Error validating URL " ++
      (sq ++ url ++ sq ++ ": Invalid URL: " ++ url)))
  else if ¬((urlparse url).scheme = "http" ∨ (urlparse url).scheme = "https") then
    .error (.validationError ("Error validating URL " ++
      (sq ++ url ++ sq ++ ": Unsupported URL scheme: " ++ (urlparse url).scheme)))
  else
    .ok true

/-- The `for url in urls` loop of `validate_urls`: validate each URL in
order (first failure propagates) and collect into `valid_urls` those for
which `validate_url` returned a truthy value. -/
def collectValid : List String → Except Exc (List String)
  | [] => .ok []
  | u :: rest =>
    match validate_url u with
    | .error e => .error e
    | .ok b =>
      match collectValid rest with
      | .error e => .error e
      | .ok vs => .ok (if b then u :: vs else vs)

/-- Embeds `validate_urls`. -/
def validate_urls (urls : List String) : Except Exc (List String) :=
  if urls = [] then .error (.validationError "At least one URL must be provided")
  else
    match collectValid urls with
    | .error e => .error e
    | .ok valid =>
      if MAX_URLS_PER_REQUEST < valid.length then
        .error (.validationError ("Exceeded maximum allowed URLs: " ++ toString MAX_URLS_PER_REQUEST))
      else if valid = [] then
        .error (.validationError "No valid URLs provided")
      else .ok valid

/-- Python's `str.strip()`: drop whitespace from both ends. -/
def pythonStrip (s : List Char) : List Char :=
  ((s.dropWhile Char.isWhitespace).reverse.dropWhile Char.isWhitespace).reverse

/-- The character class of `re.sub(r'[<>"\x27]', '', query)`. -/
def harmfulChar (c : Char) : Bool := c = '<' || c = '>' || c = '"' || c = Char.ofNat 39

/-- Embeds `validate_query`: reject empty/whitespace-only and over-long
queries, strip, remove the harmful characters, then truncate to 1000. -/
def validate_query (query : String) : Except Exc String :=
  if query.data = [] ∨ pythonStrip query.data = [] then
    .error (.validationError "Query cannot be empty")
  else if MAX_QUERY_LENGTH < (pythonStrip query.data).length then
    .error (.validationError ("Query too long. Maximum " ++ toString MAX_QUERY_LENGTH ++
      " characters allowed"))
  else
    .ok (String.mk (((pythonStrip query.data).filter (fun c => !harmfulChar c)).take 1000))

/-- The conditions under which `validate_url` accepts a URL: a scheme and a
host are present and the scheme is `http` or `https`. -/
def ValidUrl (u : String) : Prop :=
  (urlparse u).scheme ≠ "" ∧ (urlparse u).netloc ≠ "" ∧
    ((urlparse u).scheme = "http" ∨ (urlparse u).scheme = "https")

instance (u : String) : Decidable (ValidUrl u) := by
  unfold ValidUrl; exact inferInstance

/-! ### Documents and the text splitter

A document is modelled by its page content (a list of characters); loader
metadata plays no role in any claim.

`RecursiveCharacterTextSplitter` is langchain library code and is not part
of this repository, so the splitting algorithm itself is modelled from the
spec: a recursive separator-based splitter that cuts the text on separator
boundaries, descends to the next separator for over-long pieces, and falls
back to sliding windows of `chunk_size` advancing by
`chunk_size - chunk_overlap` (the configured overlap) when no separator is
left. -/

structure Document where
  content : List Char
deriving DecidableEq

structure SplitterConfig where
  separators : List String
  chunkSize : Nat
  chunkOverlap : Nat
deriving DecidableEq

/-- The splitter parameterization hard-coded in `process_urls`:
`RecursiveCharacterTextSplitter(separators=["\n\n", "\n", ".", " "],
chunk_size=settings.chunk_size, chunk_overlap=settings.chunk_overlap)`. -/
def splitterConfig : SplitterConfig :=
  ⟨["\n\n", "\n", ".", " "], CHUNK_SIZE, CHUNK_OVERLAP⟩

/-- `part` is a contiguous slice of `whole`. -/
def IsSlice (part whole : List Char) : Prop :=
  ∃ pre post, pre ++ part ++ post = whole

/-- Does `sep` occur at the head of the second list? -/
def leadsWith : List Char → List Char → Bool
  | [], _ => true
  | _ :: _, [] => false
  | a :: as, b :: bs => a = b && leadsWith as bs

/-- Modelled from the spec: split a text at every occurrence of the
separator (the separator boundaries), keeping the pieces in order. -/
def splitOnSep (sep : List Char) : List Char → List (List Char)
  | [] => [[]]
  | c :: cs =>
    if sep ≠ [] ∧ leadsWith sep (c :: cs) then
      [] :: splitOnSep sep (List.drop (sep.length - 1) cs)
    else
      match splitOnSep sep cs with
      | [] => [[c]]
      | p :: ps => (c :: p) :: ps
termination_by l => l.length
decreasing_by
  · simp only [List.length_drop, List.length_cons]; omega
  · simp only [List.length_cons]; omega

/-- Modelled from the spec: the final fallback of the splitter, sliding
windows of at most `size` characters advancing by `step` characters (so
consecutive windows overlap by `size - step` characters). -/
def windowChunks (size step : Nat) (l : List Char) : List (List Char) :=
  if l.length ≤ size ∨ step = 0 then [l]
  else l.take size :: windowChunks size step (l.drop step)
termination_by l.length
decreasing_by simp only [List.length_drop]; omega

/-- Modelled from the spec: the recursive separator-based splitter.  A text
that fits in one chunk is kept whole; otherwise it is cut at the current
separator's boundaries and over-long pieces are re-split with the remaining
separators, falling back to overlapping windows. -/
def splitChunks (size step : Nat) : List (List Char) → List Char → List (List Char)
  | [], text => windowChunks size step text
  | sep :: rest, text =>
    if text.length ≤ size then [text]
    else if sep = [] then windowChunks size step text
    else (splitOnSep sep text).flatMap (fun part =>
      if part.length ≤ size then [part] else splitChunks size step rest part)

/-- Split one text with a splitter configuration. -/
def splitText (cfg : SplitterConfig) (text : List Char) : List (List Char) :=
  splitChunks cfg.chunkSize (cfg.chunkSize - cfg.chunkOverlap)
    (cfg.separators.map String.data) text

/-- `text_splitter.split_documents(documents)`: split every document,
keeping chunk order. -/
def split_documents (cfg : SplitterConfig) (docs : List Document) : List Document :=
  docs.flatMap (fun d => (splitText cfg d.content).map Document.mk)

/-! ### The RAG service (`src/services/rag_service.py`)

External systems (ChatGroq, HuggingFaceEmbeddings, Chroma, the URL loader,
the retrieval chain) are modelled by an environment that fixes the outcome
of each external call; handles are numbers.  The mutable fields of
`RAGService` plus the contents of the Chroma collection form the service
state; every operation returns its final state even when it raises, since
Python exceptions do not roll back earlier mutations. -/

/-- The dictionary returned by `chain.invoke`: the `answer` and `sources`
keys may each be absent. -/
structure QAResult where
  answer : Option String
  sources : Option String
deriving DecidableEq

structure Env where
  /-- outcome of `ChatGroq(...)`: a handle, or the message of the raised
  exception -/
  llmNew : Except String Nat
  /-- outcome of `HuggingFaceEmbeddings(...)` -/
  embNew : Except String Nat
  /-- outcome of `Chroma(...)` -/
  vsNew : Except String Nat
  /-- outcome of `self.vector_store.reset_collection()` -/
  resetResult : Except Exc Unit
  /-- outcome of `UnstructuredURLLoader(urls=...).load()` -/
  loadResult : List String → Except Exc (List Document)
  /-- outcome of `self.vector_store.add_documents(chunks, ids=uuids)` -/
  addResult : List Document → Except Exc Unit
  /-- outcome of `chain.invoke({"question": ...})` -/
  chainResult : String → Except Exc QAResult
  /-- the stream of fresh UUIDs produced by `uuid4()` -/
  uuid : Nat → String

structure ServiceState where
  llm : Option Nat
  embeddings : Option Nat
  vectorStore : Option Nat
  initialized : Bool
  /-- contents of the persistent Chroma collection -/
  storeContents : List Document
deriving DecidableEq

/-- The `llm` property: lazy initialization of the LLM handle. -/
def llmProp (env : Env) (st : ServiceState) : ServiceState × Except Exc Nat :=
  match st.llm with
  | some h => (st, .ok h)
  | none =>
    match env.llmNew with
    | .ok h => ({ st with llm := some h }, .ok h)
    | .error m => (st, .error (.llmError ("LLM initialization failed: " ++ m)))

/-- The `embeddings` property: lazy initialization of the embedding model. -/
def embeddingsProp (env : Env) (st : ServiceState) : ServiceState × Except Exc Nat :=
  match st.embeddings with
  | some h => (st, .ok h)
  | none =>
    match env.embNew with
    | .ok h => ({ st with embeddings := some h }, .ok h)
    | .error m => (st, .error (.vectorStoreError ("Embeddings initialization failed: " ++ m)))

/-- The `vector_store` property: lazy initialization of the vector store;
constructing it reads `self.embeddings` first, and any exception from that
access is caught by this property's own handler and re-wrapped. -/
def vectorStoreProp (env : Env) (st : ServiceState) : ServiceState × Except Exc Nat :=
  match st.vectorStore with
  | some h => (st, .ok h)
  | none =>
    match embeddingsProp env st with
    | (st1, .error e) =>
      (st1, .error (.vectorStoreError ("Vector store initialization failed: " ++ e.msg)))
    | (st1, .ok _) =>
      match env.vsNew with
      | .ok h => ({ st1 with vectorStore := some h }, .ok h)
      | .error m => (st1, .error (.vectorStoreError ("Vector store initialization failed: " ++ m)))

/-- `RAGService.initialize`: return at once when already initialized,
otherwise touch the three lazy properties and set the flag. -/
def initializeComponents (env : Env) (st : ServiceState) : ServiceState × Except Exc Unit :=
  if st.initialized then (st, .ok ())
  else
    match llmProp env st with
    | (st1, .error e) => (st1, .error e)
    | (st1, .ok _) =>
      match embeddingsProp env st1 with
      | (st2, .error e) => (st2, .error e)
      | (st2, .ok _) =>
        match vectorStoreProp env st2 with
        | (st3, .error e) => (st3, .error e)
        | (st3, .ok _) => ({ st3 with initialized := true }, .ok ())

/-- `RAGService.error_handler`: logs around the block and re-raises any
exception unchanged. -/
def error_handler (operation : String) (body : Except Exc α) : Except Exc α :=
  match body with
  | .ok a => .ok a
  | .error e => .error e

/-- Events recording what a `process_urls` run did, in order: messages
yielded by the generator and the side-effecting steps performed. -/
inductive Event where
  | yielded (msg : String)
  | validated
  | didInitialize
  | didReset
  | didLoad (numDocs : Nat)
  | didSplit (cfg : SplitterConfig)
  | didStore (numChunks numIds : Nat)
deriving DecidableEq

instance {ε α : Type} [DecidableEq ε] [DecidableEq α] : DecidableEq (Except ε α) := fun x y =>
  match x, y with
  | .ok a, .ok b =>
    if h : a = b then isTrue (h ▸ rfl) else isFalse (fun hc => h (Except.ok.inj hc))
  | .error a, .error b =>
    if h : a = b then isTrue (h ▸ rfl) else isFalse (fun hc => h (Except.error.inj hc))
  | .ok _, .error _ => isFalse (fun hc => Except.noConfusion hc)
  | .error _, .ok _ => isFalse (fun hc => Except.noConfusion hc)

/-- Outcome of a `process_urls` run: final state, chronological event
trace, and normal return or raised exception. -/
structure RunResult where
  state : ServiceState
  trace : List Event
  result : Except Exc Unit
deriving DecidableEq

def msgInit : String := "🔧 Initializing components..."
def msgReset : String := "🔄 Resetting vector store..."
def msgLoad : String := "📥 Loading data from URLs..."
def msgSplit : String := "✂️ Splitting text into chunks..."
def msgAdd : String := "🗃️ Adding chunks to vector database..."
def msgDone : String := "✅ Successfully processed all URLs!"

/-- The `try` block of `process_urls` (lines 118-157): validate, yield,
initialize, yield, reset, yield, load (raising when nothing was loaded),
yield, split, yield, add with one `uuid4()` per chunk, final yield. -/
def processUrlsBody (env : Env) (st : ServiceState) (urls : List String) : RunResult :=
  match validate_urls urls with
  | .error e => ⟨st, [], .error e⟩
  | .ok valid =>
    match initializeComponents env st with
    | (st1, .error e) => ⟨st1, [.validated, .yielded msgInit], .error e⟩
    | (st1, .ok _) =>
      match error_handler "reset_collection" env.resetResult with
      | .error e =>
        ⟨st1, [.validated, .yielded msgInit, .didInitialize, .yielded msgReset], .error e⟩
      | .ok _ =>
        match error_handler "load_urls" (env.loadResult valid) with
        | .error e =>
          ⟨{ st1 with storeContents := [] },
            [.validated, .yielded msgInit, .didInitialize, .yielded msgReset, .didReset,
              .yielded msgLoad], .error e⟩
        | .ok docs =>
          if docs = [] then
            ⟨{ st1 with storeContents := [] },
              [.validated, .yielded msgInit, .didInitialize, .yielded msgReset, .didReset,
                .yielded msgLoad, .didLoad docs.length],
              .error (.urlProcessingError "No documents were loaded from the provided URLs")⟩
          else
            match error_handler "split_documents" (.ok (split_documents splitterConfig docs)) with
            | .error e =>
              ⟨{ st1 with storeContents := [] },
                [.validated, .yielded msgInit, .didInitialize, .yielded msgReset, .didReset,
                  .yielded msgLoad, .didLoad docs.length, .yielded msgSplit], .error e⟩
            | .ok chunks =>
              match error_handler "add_to_vectorstore" (env.addResult chunks) with
              | .error e =>
                ⟨{ st1 with storeContents := [] },
                  [.validated, .yielded msgInit, .didInitialize, .yielded msgReset, .didReset,
                    .yielded msgLoad, .didLoad docs.length, .yielded msgSplit,
                    .didSplit splitterConfig, .yielded msgAdd], .error e⟩
              | .ok _ =>
                ⟨{ st1 with storeContents := [] ++ chunks },
                  [.validated, .yielded msgInit, .didInitialize, .yielded msgReset, .didReset,
                    .yielded msgLoad, .didLoad docs.length, .yielded msgSplit,
                    .didSplit splitterConfig, .yielded msgAdd,
                    .didStore chunks.length ((List.range chunks.length).map env.uuid).length,
                    .yielded msgDone], .ok ()⟩

/-- The `except` clause of `process_urls` (lines 159-164):
`URLProcessingError` and `VectorStoreError` propagate unchanged, everything
else is re-raised as `URLProcessingError` with added context. -/
def wrapProcessError (r : RunResult) : RunResult :=
  match r.result with
  | .ok _ => r
  | .error e =>
    if e.isURLProcessing || e.isVectorStore then r
    else { r with result := .error (.urlProcessingError ("URL processing failed: " ++ e.msg)) }

/-- `RAGService.process_urls`. -/
def process_urls (env : Env) (st : ServiceState) (urls : List String) : RunResult :=
  wrapProcessError (processUrlsBody env st urls)

/-- The `try` block of `generate_answer` (lines 180-205). -/
def generateAnswerBody (env : Env) (st : ServiceState) (query : String) :
    ServiceState × Except Exc (String × String) :=
  match validate_query query with
  | .error e => (st, .error e)
  | .ok clean =>
    if st.initialized = false ∨ st.vectorStore = none then
      (st, .error (.vectorStoreError "Vector store not initialized. Please process URLs first."))
    else
      match llmProp env st with
      | (st1, .error e) => (st1, .error e)
      | (st1, .ok _) =>
        match vectorStoreProp env st1 with
        | (st2, .error e) => (st2, .error e)
        | (st2, .ok _) =>
          match error_handler "generate_answer" (env.chainResult clean) with
          | .error e => (st2, .error e)
          | .ok r =>
            (st2, .ok (r.answer.getD "No answer generated", r.sources.getD "No sources found"))

/-- `RAGService.generate_answer` with its `except` clause (lines 207-212):
`LLMError` and `VectorStoreError` propagate unchanged, everything else is
re-raised as `LLMError` with added context. -/
def generate_answer (env : Env) (st : ServiceState) (query : String) :
    ServiceState × Except Exc (String × String) :=
  match generateAnswerBody env st query with
  | (st2, .ok v) => (st2, .ok v)
  | (st2, .error e) =>
    if e.isLLM || e.isVectorStore then (st2, .error e)
    else (st2, .error (.llmError ("Answer generation failed: " ++ e.msg)))

/-- A fresh service, as built by `RAGService.__init__` with an empty
collection. -/
def st0 : ServiceState := ⟨none, none, none, false, []⟩

/-- A concrete environment in which every external call succeeds. -/
def okEnv : Env :=
  { llmNew := .ok 1, embNew := .ok 2, vsNew := .ok 3,
    resetResult := .ok (), loadResult := fun _ => .ok [⟨['d']⟩],
    addResult := fun _ => .ok (),
    chainResult := fun _ => .ok ⟨some "ans", some "src"⟩,
    uuid := fun n => toString n }

theorem validate_url_eq_ok {u : String} (h : ValidUrl u) : validate_url u = .ok true := by
  obtain ⟨h1, h2, h3⟩ := h
  unfold validate_url
  rw [if_neg, if_neg]
  · exact fun hc => hc h3
  · rintro (hc | hc)
    · exact h1 hc
    · exact h2 hc

theorem validate_url_ok_elim {u : String} {b : Bool} (h : validate_url u = .ok b) :
    ValidUrl u ∧ b = true := by
  unfold validate_url at h
  by_cases hc : (urlparse u).scheme = "" ∨ (urlparse u).netloc = ""
  · rw [if_pos hc] at h; cases h
  · rw [if_neg hc] at h
    by_cases hd : ¬((urlparse u).scheme = "http" ∨ (urlparse u).scheme = "https")
    · rw [if_pos hd] at h; cases h
    · rw [if_neg hd] at h
      push_neg at hc
      injection h with hb
      exact ⟨⟨hc.1, hc.2, not_not.mp hd⟩, hb.symm⟩

theorem validate_url_error_shape {u : String} {e : Exc} (h : validate_url u = .error e) :
    ∃ s, e = .validationError ("Error validating URL " ++ s) := by
  unfold validate_url at h
  by_cases hc : (urlparse u).scheme = "" ∨ (urlparse u).netloc = ""
  · rw [if_pos hc] at h
    injection h with he
    exact ⟨_, he.symm⟩
  · rw [if_neg hc] at h
    by_cases hd : ¬((urlparse u).scheme = "http" ∨ (urlparse u).scheme = "https")
    · rw [if_pos hd] at h
      injection h with he
      exact ⟨_, he.symm⟩
    · rw [if_neg hd] at h; cases h

theorem collectValid_ok_of_valid {urls : List String} (h : ∀ u ∈ urls, ValidUrl u) :
    collectValid urls = .ok urls := by
  induction urls with
  | nil => rfl
  | cons u rest ih =>
    unfold collectValid
    rw [validate_url_eq_ok (h u (List.mem_cons_self u rest)),
      ih (fun v hv => h v (List.mem_cons_of_mem u hv))]
    rfl

theorem collectValid_valid_of_ok {urls l : List String} (h : collectValid urls = .ok l) :
    ∀ u ∈ urls, ValidUrl u := by
  induction urls generalizing l with
  | nil => intro u hu; cases hu
  | cons u rest ih =>
    intro v hv
    unfold collectValid at h
    cases hval : validate_url u with
    | error e => rw [hval] at h; cases h
    | ok b =>
      rw [hval] at h
      cases hr : collectValid rest with
      | error e => rw [hr] at h; cases h
      | ok vs =>
        rw [hr] at h
        rcases List.mem_cons.mp hv with hv | hv
        · exact hv ▸ (validate_url_ok_elim hval).1
        · exact ih hr v hv

theorem collectValid_ok_eq {urls l : List String} (h : collectValid urls = .ok l) :
    l = urls := by
  induction urls generalizing l with
  | nil => cases h; rfl
  | cons u rest ih =>
    unfold collectValid at h
    cases hval : validate_url u with
    | error e => rw [hval] at h; cases h
    | ok b =>
      rw [hval] at h
      cases hr : collectValid rest with
      | error e => rw [hr] at h; cases h
      | ok vs =>
        rw [hr] at h
        have hb := (validate_url_ok_elim hval).2
        subst hb
        injection h with hl
        rw [← hl, if_pos rfl, ih hr]

theorem collectValid_error_shape {urls : List String} {e : Exc}
    (h : collectValid urls = .error e) :
    ∃ s, e = .validationError ("Error validating URL " ++ s) := by
  induction urls generalizing e with
  | nil => cases h
  | cons u rest ih =>
    unfold collectValid at h
    cases hval : validate_url u with
    | error e2 =>
      rw [hval] at h
      injection h with he
      exact he ▸ validate_url_error_shape hval
    | ok b =>
      rw [hval] at h
      cases hr : collectValid rest with
      | error e2 =>
        rw [hr] at h
        injection h with he
        exact he ▸ ih hr
      | ok vs => rw [hr] at h; cases h

theorem errorMsgHead (s : String) : ("Error validating URL " ++ s).data.head? = some 'E' := rfl

theorem errorMsg_ne (s : String) : ("Error validating URL " ++ s) ≠ "No valid URLs provided" := by
  intro h
  have h2 : ("Error validating URL " ++ s).data.head? =
      ("No valid URLs provided" : String).data.head? := by rw [h]
  rw [errorMsgHead s] at h2
  exact absurd h2 (by decide)

/-- C3: `validate_urls` raises `ValidationError` exactly when the list is
empty, when some element lacks a scheme or host or has a scheme other than
`http`/`https`, or when there are more than the configured maximum of 10
URLs; otherwise it returns the list of validated URLs. -/
theorem C3_validate_urls_raises_iff (urls : List String) :
    ((urls = [] ∨ (∃ u ∈ urls, ¬ ValidUrl u) ∨ MAX_URLS_PER_REQUEST < urls.length) →
      ∃ m, validate_urls urls = .error (.validationError m)) ∧
    (urls ≠ [] → (∀ u ∈ urls, ValidUrl u) → urls.length ≤ MAX_URLS_PER_REQUEST →
      validate_urls urls = .ok urls) := by
  constructor
  · intro hbad
    by_cases hnil : urls = []
    · subst hnil
      exact ⟨_, rfl⟩
    · unfold validate_urls
      rw [if_neg hnil]
      cases hc : collectValid urls with
      | error e =>
        obtain ⟨s, hs⟩ := collectValid_error_shape hc
        exact ⟨_, by rw [hs]⟩
      | ok valid =>
        have hval : ∀ u ∈ urls, ValidUrl u := collectValid_valid_of_ok hc
        have heq : valid = urls := collectValid_ok_eq hc
        rcases hbad with hbad | ⟨u, hu, hbadu⟩ | hbad
        · exact absurd hbad hnil
        · exact absurd (hval u hu) hbadu
        · dsimp only
          rw [heq, if_pos hbad]
          exact ⟨_, rfl⟩
  · intro hnil hval hlen
    unfold validate_urls
    rw [if_neg hnil, collectValid_ok_of_valid hval]
    dsimp only
    rw [if_neg (by omega : ¬ MAX_URLS_PER_REQUEST < urls.length), if_neg hnil]

/-- Witness for C3: a valid single URL is returned unchanged; an `ftp` URL
makes `validate_urls` raise a `ValidationError`. -/
theorem C3_witness :
    validate_urls ["http://a.com"] = .ok ["http://a.com"] ∧
    ∃ m, validate_urls ["ftp://b.com"] = .error (.validationError m) := by
  constructor
  · exact (C3_validate_urls_raises_iff ["http://a.com"]).2 (by decide) (by decide) (by decide)
  · exact (C3_validate_urls_raises_iff ["ftp://b.com"]).1
      (Or.inr (Or.inl ⟨"ftp://b.com", by simp, by decide⟩))

/-- C9: whenever `validate_urls` returns, it returns exactly its input list,
because `validate_url` never returns a falsy value (it either returns `True`
or raises); consequently the branch raising `ValidationError` with message
"No valid URLs provided" is unreachable: no error ever carries that
message. -/
theorem C9_validate_urls_returns_input :
    (∀ u b, validate_url u = .ok b → b = true) ∧
    (∀ urls l, validate_urls urls = .ok l → l = urls) ∧
    (∀ urls e, validate_urls urls = .error e → e.msg ≠ "No valid URLs provided") := by
  refine ⟨fun u b h => (validate_url_ok_elim h).2, ?_, ?_⟩
  · intro urls l h
    unfold validate_urls at h
    by_cases hnil : urls = []
    · rw [if_pos hnil] at h; cases h
    · rw [if_neg hnil] at h
      cases hc : collectValid urls with
      | error e => rw [hc] at h; cases h
      | ok valid =>
        rw [hc] at h
        dsimp only at h
        by_cases hlen : MAX_URLS_PER_REQUEST < valid.length
        · rw [if_pos hlen] at h; cases h
        · rw [if_neg hlen] at h
          by_cases hv : valid = []
          · rw [if_pos hv] at h; cases h
          · rw [if_neg hv] at h
            injection h with hl
            rw [← hl]
            exact collectValid_ok_eq hc
  · intro urls e h
    unfold validate_urls at h
    by_cases hnil : urls = []
    · rw [if_pos hnil] at h
      injection h with he
      rw [← he]
      decide
    · rw [if_neg hnil] at h
      cases hc : collectValid urls with
      | error e2 =>
        rw [hc] at h
        injection h with he
        obtain ⟨s, hs⟩ := collectValid_error_shape hc
        rw [← he, hs]
        exact errorMsg_ne s
      | ok valid =>
        rw [hc] at h
        dsimp only at h
        by_cases hlen : MAX_URLS_PER_REQUEST < valid.length
        · rw [if_pos hlen] at h
          injection h with he
          rw [← he]
          decide
        · rw [if_neg hlen] at h
          by_cases hv : valid = []
          · exact absurd (hv ▸ collectValid_ok_eq hc).symm hnil
          · rw [if_neg hv] at h; cases h

/-- Witness for C9: each conjunct evaluated at a concrete input. -/
theorem C9_witness :
    true = true ∧ (["http://a.com"] : List String) = ["http://a.com"] ∧
    Exc.msg (.validationError ("Error validating URL " ++
      (sq ++ "ftp://b.com" ++ sq ++ ": Unsupported URL scheme: " ++ "ftp"))) ≠
      "No valid URLs provided" := by
  refine ⟨C9_validate_urls_returns_input.1 "http://a.com" true rfl,
    C9_validate_urls_returns_input.2.1 ["http://a.com"] ["http://a.com"] rfl,
    C9_validate_urls_returns_input.2.2 ["ftp://b.com"] _ rfl⟩

/-- C8 (amended): whenever `validate_query` accepts a query, the returned
string has length at most the configured maximum of 500, contains none of
the characters `<`, `>`, `"`, `'`, and the final truncation to 1000
characters never shortens it.  (The original claim also asserted the result
is non-empty with no leading or trailing whitespace; both parts are false,
see the counterexample: sanitization happens after stripping and may delete
every character or leave whitespace at the ends.) -/
theorem C8_validate_query_bounds (q r : String) (h : validate_query q = .ok r) :
    r.length ≤ MAX_QUERY_LENGTH ∧ (∀ c ∈ r.data, harmfulChar c = false) ∧
    r.data.take 1000 = r.data := by
  unfold validate_query at h
  by_cases hc : q.data = [] ∨ pythonStrip q.data = []
  · rw [if_pos hc] at h; cases h
  · rw [if_neg hc] at h
    by_cases hd : MAX_QUERY_LENGTH < (pythonStrip q.data).length
    · rw [if_pos hd] at h; cases h
    · rw [if_neg hd] at h
      injection h with hr
      have hdata : r.data = ((pythonStrip q.data).filter (fun c => !harmfulChar c)).take 1000 := by
        rw [← hr]
      have hlen : r.length = r.data.length := rfl
      refine ⟨?_, ?_, ?_⟩
      · rw [hlen, hdata]
        have h1 := List.length_take 1000 ((pythonStrip q.data).filter (fun c => !harmfulChar c))
        have h2 := List.length_filter_le (fun c => !harmfulChar c) (pythonStrip q.data)
        simp only [not_lt] at hd
        omega
      · intro c hcmem
        rw [hdata] at hcmem
        have := List.of_mem_filter (List.mem_of_mem_take hcmem)
        simpa using this
      · rw [hdata, List.take_take]
        simp

/-- Witness for C8: a short clean query passes through unchanged and
satisfies the bounds. -/
theorem C8_witness :
    validate_query "hi" = .ok "hi" ∧
    ("hi" : String).length ≤ MAX_QUERY_LENGTH ∧
    (∀ c ∈ ("hi" : String).data, harmfulChar c = false) ∧
    ("hi" : String).data.take 1000 = ("hi" : String).data :=
  ⟨rfl, C8_validate_query_bounds "hi" "hi" rfl⟩

/-- Counterexample for C8 as stated: the input `"<"` is accepted and the
returned string is empty, and the input `"< a"` is accepted and the
returned string has leading whitespace. -/
theorem C8_counterexample :
    validate_query "<" = .ok "" ∧ validate_query "< a" = .ok " a" := ⟨rfl, rfl⟩

/-! ### Lazy properties -/

theorem llmProp_of_some {env : Env} {st : ServiceState} {h : Nat} (hl : st.llm = some h) :
    llmProp env st = (st, .ok h) := by
  simp [llmProp, hl]

theorem llmProp_ok_sets {env : Env} {st st2 : ServiceState} {h : Nat}
    (hok : llmProp env st = (st2, .ok h)) : st2.llm = some h := by
  unfold llmProp at hok
  cases hl : st.llm with
  | some h0 =>
    rw [hl] at hok
    injection hok with h1 h2
    injection h2 with h3
    rw [← h1, hl, h3]
  | none =>
    rw [hl] at hok
    cases hn : env.llmNew with
    | ok h1 =>
      rw [hn] at hok
      injection hok with ha hb
      injection hb with hc
      rw [← ha, hc]
    | error m =>
      rw [hn] at hok
      injection hok with ha hb
      cases hb

theorem embeddingsProp_of_some {env : Env} {st : ServiceState} {h : Nat}
    (hl : st.embeddings = some h) : embeddingsProp env st = (st, .ok h) := by
  simp [embeddingsProp, hl]

theorem embeddingsProp_ok_sets {env : Env} {st st2 : ServiceState} {h : Nat}
    (hok : embeddingsProp env st = (st2, .ok h)) : st2.embeddings = some h := by
  unfold embeddingsProp at hok
  cases hl : st.embeddings with
  | some h0 =>
    rw [hl] at hok
    injection hok with h1 h2
    injection h2 with h3
    rw [← h1, hl, h3]
  | none =>
    rw [hl] at hok
    cases hn : env.embNew with
    | ok h1 =>
      rw [hn] at hok
      injection hok with ha hb
      injection hb with hc
      rw [← ha, hc]
    | error m =>
      rw [hn] at hok
      injection hok with ha hb
      cases hb

theorem vectorStoreProp_of_some {env : Env} {st : ServiceState} {h : Nat}
    (hl : st.vectorStore = some h) : vectorStoreProp env st = (st, .ok h) := by
  simp [vectorStoreProp, hl]

theorem vectorStoreProp_ok_sets {env : Env} {st st2 : ServiceState} {h : Nat}
    (hok : vectorStoreProp env st = (st2, .ok h)) : st2.vectorStore = some h := by
  unfold vectorStoreProp at hok
  cases hl : st.vectorStore with
  | some h0 =>
    rw [hl] at hok
    injection hok with h1 h2
    injection h2 with h3
    rw [← h1, hl, h3]
  | none =>
    rw [hl] at hok
    cases he : embeddingsProp env st with
    | mk st1 res =>
      rw [he] at hok
      cases res with
      | error e =>
        injection hok with ha hb
        cases hb
      | ok h1 =>
        cases hn : env.vsNew with
        | ok h2 =>
          rw [hn] at hok
          injection hok with ha hb
          injection hb with hc
          rw [← ha, hc]
        | error m =>
          rw [hn] at hok
          injection hok with ha hb
          cases hb

theorem initializeComponents_ok_sets {env : Env} {st st2 : ServiceState}
    (hok : initializeComponents env st = (st2, .ok ())) : st2.initialized = true := by
  unfold initializeComponents at hok
  by_cases hi : st.initialized
  · rw [if_pos hi] at hok
    injection hok with ha hb
    rw [← ha]; exact hi
  · rw [if_neg hi] at hok
    cases h1 : llmProp env st with
    | mk st1 res1 =>
      rw [h1] at hok
      cases res1 with
      | error e => injection hok with ha hb; cases hb
      | ok _ =>
        dsimp only at hok
        cases h2 : embeddingsProp env st1 with
        | mk stb res2 =>
          rw [h2] at hok
          cases res2 with
          | error e => injection hok with ha hb; cases hb
          | ok _ =>
            dsimp only at hok
            cases h3 : vectorStoreProp env stb with
            | mk stc res3 =>
              rw [h3] at hok
              cases res3 with
              | error e => injection hok with ha hb; cases hb
              | ok _ =>
                injection hok with ha hb
                rw [← ha]

theorem initializeComponents_of_initialized {env : Env} {st : ServiceState}
    (hi : st.initialized = true) : initializeComponents env st = (st, .ok ()) := by
  simp [initializeComponents, hi]

/-- C5: the three handles are lazily initialized — a successful access
records the handle in the state and every later access, under any
environment, returns the same handle with the state unchanged; and
`initialize` is idempotent — a successful call leaves the flag set, and on
an initialized state every call returns immediately with nothing changed. -/
theorem C5_lazy_handles_idempotent_init (env : Env) (st : ServiceState) :
    (∀ st2 h, llmProp env st = (st2, .ok h) →
      st2.llm = some h ∧ ∀ env2, llmProp env2 st2 = (st2, .ok h)) ∧
    (∀ st2 h, embeddingsProp env st = (st2, .ok h) →
      st2.embeddings = some h ∧ ∀ env2, embeddingsProp env2 st2 = (st2, .ok h)) ∧
    (∀ st2 h, vectorStoreProp env st = (st2, .ok h) →
      st2.vectorStore = some h ∧ ∀ env2, vectorStoreProp env2 st2 = (st2, .ok h)) ∧
    (∀ st2, initializeComponents env st = (st2, .ok ()) →
      st2.initialized = true ∧ ∀ env2, initializeComponents env2 st2 = (st2, .ok ())) ∧
    (st.initialized = true → initializeComponents env st = (st, .ok ())) := by
  refine ⟨?_, ?_, ?_, ?_, initializeComponents_of_initialized⟩
  · intro st2 h hok
    have hs := llmProp_ok_sets hok
    exact ⟨hs, fun env2 => llmProp_of_some hs⟩
  · intro st2 h hok
    have hs := embeddingsProp_ok_sets hok
    exact ⟨hs, fun env2 => embeddingsProp_of_some hs⟩
  · intro st2 h hok
    have hs := vectorStoreProp_ok_sets hok
    exact ⟨hs, fun env2 => vectorStoreProp_of_some hs⟩
  · intro st2 hok
    have hs := initializeComponents_ok_sets hok
    exact ⟨hs, fun env2 => initializeComponents_of_initialized hs⟩

/-- Witness for C5, at a fresh state in an environment where construction
succeeds. -/
theorem C5_witness :
    ((st0.llm = none) ∧
      llmProp okEnv st0 = (⟨some 1, none, none, false, []⟩, .ok 1)) ∧
    (⟨some 1, none, none, false, []⟩ : ServiceState).llm = some 1 ∧
    llmProp okEnv ⟨some 1, none, none, false, []⟩ = (⟨some 1, none, none, false, []⟩, .ok 1) := by
  refine ⟨⟨rfl, rfl⟩, (C5_lazy_handles_idempotent_init okEnv st0).1 _ 1 rfl |>.1,
    ((C5_lazy_handles_idempotent_init okEnv st0).1 _ 1 rfl).2 okEnv⟩

/-- C7: `error_handler` is transparent to exceptions: an exception raised
in the block is re-raised unchanged, and a block that completes normally
has its value passed through with no exception introduced. -/
theorem C7_error_handler_transparent {α : Type} (op : String) (r : Except Exc α) :
    error_handler op r = r := by
  cases r <;> rfl

/-- C1: in `process_urls`, an exception from the body that is neither a
`URLProcessingError` nor a `VectorStoreError` is re-raised as a
`URLProcessingError` with the context "URL processing failed: ..." added,
while those two classes propagate unchanged; symmetrically in
`generate_answer` with `LLMError`/`VectorStoreError` and the context
"Answer generation failed: ...". -/
theorem C1_exception_translation (env : Env) (st : ServiceState) (urls : List String)
    (query : String) :
    (∀ e, (processUrlsBody env st urls).result = .error e →
      ((e.isURLProcessing = false ∧ e.isVectorStore = false) →
        (process_urls env st urls).result =
          .error (.urlProcessingError ("URL processing failed: " ++ e.msg))) ∧
      ((e.isURLProcessing = true ∨ e.isVectorStore = true) →
        (process_urls env st urls).result = .error e)) ∧
    (∀ e, (generateAnswerBody env st query).2 = .error e →
      ((e.isLLM = false ∧ e.isVectorStore = false) →
        (generate_answer env st query).2 =
          .error (.llmError ("Answer generation failed: " ++ e.msg))) ∧
      ((e.isLLM = true ∨ e.isVectorStore = true) →
        (generate_answer env st query).2 = .error e)) := by
  constructor
  · intro e he
    constructor
    · intro ⟨hu, hv⟩
      simp [process_urls, wrapProcessError, he, hu, hv]
    · intro huv
      rcases huv with hu | hv
      · simp [process_urls, wrapProcessError, he, hu]
      · simp [process_urls, wrapProcessError, he, hv]
  · intro e he
    cases hb : generateAnswerBody env st query with
    | mk st2 res =>
      rw [hb] at he
      dsimp only at he
      subst he
      constructor
      · intro ⟨hu, hv⟩
        simp [generate_answer, hb, hu, hv]
      · intro huv
        rcases huv with hu | hv
        · simp [generate_answer, hb, hu]
        · simp [generate_answer, hb, hv]

/-- Witness for C1: a reset failure with a library exception is wrapped
into a `URLProcessingError` with context; an invalid query makes the
`generate_answer` body raise a `ValidationError`, which is wrapped into an
`LLMError` with context. -/
theorem C1_witness :
    (process_urls { okEnv with resetResult := .error (.otherError "boom") } st0
        ["http://a.com"]).result =
      .error (.urlProcessingError "URL processing failed: boom") ∧
    (generate_answer okEnv st0 "").2 =
      .error (.llmError "Answer generation failed: Query cannot be empty") := by
  constructor
  · exact ((C1_exception_translation { okEnv with resetResult := .error (.otherError "boom") }
      st0 ["http://a.com"] "").1 (.otherError "boom") rfl).1 ⟨rfl, rfl⟩
  · exact ((C1_exception_translation okEnv st0 [] "").2
      (.validationError "Query cannot be empty") rfl).1 ⟨rfl, rfl⟩

/-- C4 (amended): for every query accepted by `validate_query`, calling
`generate_answer` before the service is initialized (flag unset or vector
store handle absent) raises `VectorStoreError` with the service state
unchanged and without consulting the environment; when the service is
initialized with its handles present, a successful chain invocation
returns the answer and sources with "No answer generated" / "No sources
found" substituted for missing keys.  (The original claim asserted the
`VectorStoreError` for every query; it is false for queries rejected by
validation, which are wrapped into `LLMError` instead — see the
counterexample.) -/
theorem C4_generate_answer_uninitialized (env : Env) (st : ServiceState) (q clean : String) :
    (validate_query q = .ok clean → (st.initialized = false ∨ st.vectorStore = none) →
      generate_answer env st q =
        (st, .error (.vectorStoreError "Vector store not initialized. Please process URLs first."))) ∧
    (∀ hl hv r, validate_query q = .ok clean → st.initialized = true → st.llm = some hl →
      st.vectorStore = some hv → env.chainResult clean = .ok r →
      generate_answer env st q =
        (st, .ok (r.answer.getD "No answer generated", r.sources.getD "No sources found"))) := by
  constructor
  · intro hq huninit
    have hcond : (st.initialized = false ∨ st.vectorStore = none) = True := by
      simp [huninit]
    simp [generate_answer, generateAnswerBody, hq, hcond, Exc.isLLM, Exc.isVectorStore]
  · intro hl hv r hq hinit hsl hsv hchain
    have hcond : ¬(st.initialized = false ∨ st.vectorStore = none) := by
      simp [hinit, hsv]
    simp [generate_answer, generateAnswerBody, hq, hcond, llmProp_of_some hsl,
      vectorStoreProp_of_some hsv, error_handler, hchain]

/-- Witness for C4: on a fresh state, a valid query raises the
uninitialized `VectorStoreError`; on a fully initialized state the chain
result is unpacked with the defaults. -/
theorem C4_witness :
    generate_answer okEnv st0 "hi" =
      (st0, .error (.vectorStoreError "Vector store not initialized. Please process URLs first.")) ∧
    generate_answer okEnv ⟨some 1, some 2, some 3, true, []⟩ "hi" =
      (⟨some 1, some 2, some 3, true, []⟩, .ok ("ans", "src")) := by
  constructor
  · exact (C4_generate_answer_uninitialized okEnv st0 "hi" "hi").1 rfl (Or.inl rfl)
  · exact (C4_generate_answer_uninitialized okEnv ⟨some 1, some 2, some 3, true, []⟩
      "hi" "hi").2 1 3 ⟨some "ans", some "src"⟩ rfl rfl rfl rfl rfl

/-- Counterexample for C4 as stated: called on a fresh, uninitialized
service with an empty query, `generate_answer` raises `LLMError`, not
`VectorStoreError`. -/
theorem C4_counterexample :
    generate_answer okEnv st0 "" =
      (st0, .error (.llmError "Answer generation failed: Query cannot be empty")) := rfl

/-! ### Runs of `process_urls` -/

theorem wrapProcessError_trace (r : RunResult) : (wrapProcessError r).trace = r.trace := by
  unfold wrapProcessError
  cases hr : r.result with
  | ok a => rfl
  | error e =>
    dsimp only
    by_cases hc : (e.isURLProcessing || e.isVectorStore) = true
    · rw [if_pos hc]
    · rw [if_neg hc]

theorem wrapProcessError_state (r : RunResult) : (wrapProcessError r).state = r.state := by
  unfold wrapProcessError
  cases hr : r.result with
  | ok a => rfl
  | error e =>
    dsimp only
    by_cases hc : (e.isURLProcessing || e.isVectorStore) = true
    · rw [if_pos hc]
    · rw [if_neg hc]

/-- Every run of the `process_urls` body has one of seven shapes, fixed by
how far it got before stopping: validation failure, initialization failure,
reset failure, load failure, zero documents loaded, add failure, or
success. -/
theorem processUrlsBody_shape (env : Env) (st : ServiceState) (urls : List String) :
    (∃ e, processUrlsBody env st urls = ⟨st, [], .error e⟩) ∨
    (∃ (st1 : ServiceState) (e : Exc), processUrlsBody env st urls =
      ⟨st1, [.validated, .yielded msgInit], .error e⟩) ∨
    (∃ (st1 : ServiceState) (e : Exc), processUrlsBody env st urls =
      ⟨st1, [.validated, .yielded msgInit, .didInitialize, .yielded msgReset], .error e⟩) ∨
    (∃ (st1 : ServiceState) (e : Exc), processUrlsBody env st urls =
      ⟨{ st1 with storeContents := [] },
        [.validated, .yielded msgInit, .didInitialize, .yielded msgReset, .didReset,
          .yielded msgLoad], .error e⟩) ∨
    (∃ (st1 : ServiceState) (n : Nat), processUrlsBody env st urls =
      ⟨{ st1 with storeContents := [] },
        [.validated, .yielded msgInit, .didInitialize, .yielded msgReset, .didReset,
          .yielded msgLoad, .didLoad n],
        .error (.urlProcessingError "No documents were loaded from the provided URLs")⟩) ∨
    (∃ (st1 : ServiceState) (n : Nat) (e : Exc), processUrlsBody env st urls =
      ⟨{ st1 with storeContents := [] },
        [.validated, .yielded msgInit, .didInitialize, .yielded msgReset, .didReset,
          .yielded msgLoad, .didLoad n, .yielded msgSplit, .didSplit splitterConfig,
          .yielded msgAdd], .error e⟩) ∨
    (∃ (st1 : ServiceState) (n : Nat) (chunks : List Document) (ids : Nat),
      processUrlsBody env st urls =
      ⟨{ st1 with storeContents := chunks },
        [.validated, .yielded msgInit, .didInitialize, .yielded msgReset, .didReset,
          .yielded msgLoad, .didLoad n, .yielded msgSplit, .didSplit splitterConfig,
          .yielded msgAdd, .didStore chunks.length ids, .yielded msgDone], .ok ()⟩) := by
  cases hv : validate_urls urls with
  | error e =>
    exact Or.inl ⟨e, by simp [processUrlsBody, hv]⟩
  | ok valid =>
    cases hi : initializeComponents env st with
    | mk st1 res1 =>
      cases res1 with
      | error e =>
        exact Or.inr (Or.inl ⟨st1, e, by simp [processUrlsBody, hv, hi]⟩)
      | ok u =>
        cases hr : env.resetResult with
        | error e =>
          exact Or.inr (Or.inr (Or.inl ⟨st1, e,
            by simp [processUrlsBody, hv, hi, error_handler, hr]⟩))
        | ok v =>
          cases hl : env.loadResult valid with
          | error e =>
            exact Or.inr (Or.inr (Or.inr (Or.inl ⟨st1, e,
              by simp [processUrlsBody, hv, hi, error_handler, hr, hl]⟩)))
          | ok docs =>
            by_cases hd : docs = []
            · exact Or.inr (Or.inr (Or.inr (Or.inr (Or.inl ⟨st1, docs.length,
                by simp [processUrlsBody, hv, hi, error_handler, hr, hl, hd]⟩))))
            · cases ha : env.addResult (split_documents splitterConfig docs) with
              | error e =>
                exact Or.inr (Or.inr (Or.inr (Or.inr (Or.inr (Or.inl ⟨st1, docs.length, e,
                  by simp [processUrlsBody, hv, hi, error_handler, hr, hl, hd, ha]⟩)))))
              | ok w =>
                exact Or.inr (Or.inr (Or.inr (Or.inr (Or.inr (Or.inr
                  ⟨st1, docs.length, split_documents splitterConfig docs,
                    ((List.range (split_documents splitterConfig docs).length).map env.uuid).length,
                    by simp [processUrlsBody, hv, hi, error_handler, hr, hl, hd, ha]⟩)))))

/-- C2 (amended): on a non-empty list of valid URLs, `process_urls`
first validates the URLs — before any status message is yielded — and then
performs initialize, reset, load, split and store in exactly this order,
yielding a status message before each of those five steps and a success
message at the end, generating one fresh UUID per chunk; if loading
returns zero documents it raises `URLProcessingError` before any chunking
or storing happens.  (The original claim placed a status message before
the validation step as well; the run's first action is validation, with no
preceding message — see the counterexample.) -/
theorem C2_process_urls_order (env : Env) (st : ServiceState) (urls valid : List String) :
    (validate_urls urls = .ok valid →
      ∀ st1, initializeComponents env st = (st1, .ok ()) →
      env.resetResult = .ok () →
      ∀ docs, env.loadResult valid = .ok docs → docs ≠ [] →
      env.addResult (split_documents splitterConfig docs) = .ok () →
      (process_urls env st urls).trace =
        [.validated, .yielded msgInit, .didInitialize, .yielded msgReset, .didReset,
          .yielded msgLoad, .didLoad docs.length, .yielded msgSplit, .didSplit splitterConfig,
          .yielded msgAdd,
          .didStore (split_documents splitterConfig docs).length
            (split_documents splitterConfig docs).length,
          .yielded msgDone] ∧
      (process_urls env st urls).result = .ok ()) ∧
    (validate_urls urls = .ok valid →
      ∀ st1, initializeComponents env st = (st1, .ok ()) →
      env.resetResult = .ok () →
      env.loadResult valid = .ok [] →
      (process_urls env st urls).result =
        .error (.urlProcessingError "No documents were loaded from the provided URLs") ∧
      (∀ cfg, Event.didSplit cfg ∉ (process_urls env st urls).trace) ∧
      (∀ n m, Event.didStore n m ∉ (process_urls env st urls).trace)) := by
  constructor
  · intro hv st1 hinit hreset docs hload hne hadd
    have hb : processUrlsBody env st urls =
        ⟨{ st1 with storeContents := [] ++ split_documents splitterConfig docs },
          [.validated, .yielded msgInit, .didInitialize, .yielded msgReset, .didReset,
            .yielded msgLoad, .didLoad docs.length, .yielded msgSplit,
            .didSplit splitterConfig, .yielded msgAdd,
            .didStore (split_documents splitterConfig docs).length
              ((List.range (split_documents splitterConfig docs).length).map env.uuid).length,
            .yielded msgDone], .ok ()⟩ := by
      simp [processUrlsBody, hv, hinit, error_handler, hreset, hload, hne, hadd]
    constructor
    · rw [show process_urls env st urls = wrapProcessError (processUrlsBody env st urls) from rfl,
        wrapProcessError_trace, hb]
      simp
    · rw [show process_urls env st urls = wrapProcessError (processUrlsBody env st urls) from rfl,
        hb]
      rfl
  · intro hv st1 hinit hreset hload
    have hb : processUrlsBody env st urls =
        ⟨{ st1 with storeContents := [] },
          [.validated, .yielded msgInit, .didInitialize, .yielded msgReset, .didReset,
            .yielded msgLoad, .didLoad 0],
          .error (.urlProcessingError "No documents were loaded from the provided URLs")⟩ := by
      simp [processUrlsBody, hv, hinit, error_handler, hreset, hload]
    have hw : process_urls env st urls = wrapProcessError (processUrlsBody env st urls) := rfl
    refine ⟨?_, ?_, ?_⟩
    · rw [hw, hb]; rfl
    · intro cfg
      rw [hw, wrapProcessError_trace, hb]
      simp
    · intro n m
      rw [hw, wrapProcessError_trace, hb]
      simp

/-- Witness for C2: a fully successful run has the stated trace, and a run
whose loader returns zero documents raises the `URLProcessingError` with
no chunking or storing in its trace. -/
theorem C2_witness :
    (process_urls okEnv st0 ["http://a.com"]).trace =
      [.validated, .yielded msgInit, .didInitialize, .yielded msgReset, .didReset,
        .yielded msgLoad, .didLoad ([⟨['d']⟩] : List Document).length, .yielded msgSplit,
        .didSplit splitterConfig, .yielded msgAdd,
        .didStore (split_documents splitterConfig [⟨['d']⟩]).length
          (split_documents splitterConfig [⟨['d']⟩]).length,
        .yielded msgDone] ∧
    (process_urls { okEnv with loadResult := fun _ => .ok [] } st0 ["http://a.com"]).result =
      .error (.urlProcessingError "No documents were loaded from the provided URLs") := by
  constructor
  · exact ((C2_process_urls_order okEnv st0 ["http://a.com"] ["http://a.com"]).1 rfl
      ⟨some 1, some 2, some 3, true, []⟩ rfl rfl [⟨['d']⟩] rfl (by simp) rfl).1
  · exact ((C2_process_urls_order { okEnv with loadResult := fun _ => .ok [] } st0
      ["http://a.com"] ["http://a.com"]).2 rfl
      ⟨some 1, some 2, some 3, true, []⟩ rfl rfl rfl).1

/-- Counterexample for C2 as stated: in a fully successful run the first
recorded action is the validation step itself, not a yielded status
message, so no status message is yielded before validating. -/
theorem C2_counterexample :
    (process_urls okEnv st0 ["http://a.com"]).result = .ok () ∧
    (process_urls okEnv st0 ["http://a.com"]).trace.head? = some Event.validated := ⟨rfl, rfl⟩

/-- C10: `process_urls` is not atomic with respect to the vector store —
the collection is reset before any URL is fetched (every run that fetched
had already reset), and a run that passed the reset step and then raised
leaves the store in the reset (empty) state, not its pre-call contents. -/
theorem C10_reset_before_load_not_atomic (env : Env) (st : ServiceState) (urls : List String) :
    (∀ e, Event.didReset ∈ (process_urls env st urls).trace →
      (process_urls env st urls).result = .error e →
      (process_urls env st urls).state.storeContents = []) ∧
    (∀ n, Event.didLoad n ∈ (process_urls env st urls).trace →
      Event.didReset ∈ (process_urls env st urls).trace) := by
  have hshape := processUrlsBody_shape env st urls
  have hw : process_urls env st urls = wrapProcessError (processUrlsBody env st urls) := rfl
  constructor
  · intro e hmem herr
    rcases hshape with ⟨e1, hb⟩ | ⟨st1, e1, hb⟩ | ⟨st1, e1, hb⟩ | ⟨st1, e1, hb⟩ |
      ⟨st1, n, hb⟩ | ⟨st1, n, e1, hb⟩ | ⟨st1, n, chunks, ids, hb⟩
    · rw [hw, hb, wrapProcessError_trace] at hmem
      simp at hmem
    · rw [hw, hb, wrapProcessError_trace] at hmem
      simp at hmem
    · rw [hw, hb, wrapProcessError_trace] at hmem
      simp at hmem
    · rw [hw, hb, wrapProcessError_state]
    · rw [hw, hb, wrapProcessError_state]
    · rw [hw, hb, wrapProcessError_state]
    · rw [hw, hb] at herr
      simp [wrapProcessError] at herr
  · intro n hmem
    rcases hshape with ⟨e1, hb⟩ | ⟨st1, e1, hb⟩ | ⟨st1, e1, hb⟩ | ⟨st1, e1, hb⟩ |
      ⟨st1, n1, hb⟩ | ⟨st1, n1, e1, hb⟩ | ⟨st1, n1, chunks, ids, hb⟩ <;>
      rw [hw, wrapProcessError_trace, hb] at hmem ⊢ <;> simp at hmem ⊢

/-- Witness for C10: starting from a state whose collection holds a chunk,
a run whose loader raises leaves the collection empty, and a run that
loaded had reset first. -/
theorem C10_witness :
    (process_urls { okEnv with loadResult := fun _ => .error (.otherError "down") }
      ⟨none, none, none, false, [⟨['x']⟩]⟩ ["http://a.com"]).state.storeContents = [] ∧
    Event.didReset ∈ (process_urls okEnv st0 ["http://a.com"]).trace := by
  constructor
  · exact (C10_reset_before_load_not_atomic
      { okEnv with loadResult := fun _ => .error (.otherError "down") }
      ⟨none, none, none, false, [⟨['x']⟩]⟩ ["http://a.com"]).1
      (.urlProcessingError "URL processing failed: down") (by decide) (by decide)
  · exact (C10_reset_before_load_not_atomic okEnv st0 ["http://a.com"]).2
      ([⟨['d']⟩] : List Document).length (by decide)

/-! ### Soundness of the modelled splitter -/

theorem slice_refl (l : List Char) : IsSlice l l := ⟨[], [], by simp⟩

theorem slice_nil (l : List Char) : IsSlice [] l := ⟨[], l, by simp⟩

theorem slice_trans {a b c : List Char} (h1 : IsSlice a b) (h2 : IsSlice b c) : IsSlice a c := by
  obtain ⟨p1, s1, rfl⟩ := h1
  obtain ⟨p2, s2, rfl⟩ := h2
  exact ⟨p2 ++ p1, s1 ++ s2, by simp⟩

theorem slice_cons {p l : List Char} (c : Char) (h : IsSlice p l) : IsSlice p (c :: l) := by
  obtain ⟨p1, s1, rfl⟩ := h
  exact ⟨c :: p1, s1, rfl⟩

theorem slice_drop (k : Nat) (l : List Char) : IsSlice (l.drop k) l :=
  ⟨l.take k, [], by simp⟩

theorem slice_take (k : Nat) (l : List Char) : IsSlice (l.take k) l :=
  ⟨[], l.drop k, by simp⟩

theorem slice_front {p post l : List Char} (h : p ++ post = l) : IsSlice p l :=
  ⟨[], post, by simp [h]⟩

theorem splitOnSep_head_front_aux (sep : List Char) :
    ∀ (n : Nat) (l : List Char), l.length ≤ n →
      ∀ p ps, splitOnSep sep l = p :: ps → ∃ post, p ++ post = l := by
  intro n
  induction n with
  | zero =>
    intro l hl p ps h
    have hnil : l = [] := List.length_eq_zero.mp (Nat.le_zero.mp hl)
    subst hnil
    unfold splitOnSep at h
    injection h with hp hps
    exact ⟨[], by simp [← hp]⟩
  | succ n ih =>
    intro l hl p ps h
    cases l with
    | nil =>
      unfold splitOnSep at h
      injection h with hp hps
      exact ⟨[], by simp [← hp]⟩
    | cons c cs =>
      unfold splitOnSep at h
      by_cases hc : sep ≠ [] ∧ leadsWith sep (c :: cs) = true
      · rw [if_pos hc] at h
        injection h with hp hps
        exact ⟨c :: cs, by rw [← hp]; rfl⟩
      · rw [if_neg hc] at h
        cases hr : splitOnSep sep cs with
        | nil =>
          rw [hr] at h
          injection h with hp hps
          exact ⟨cs, by rw [← hp]; rfl⟩
        | cons q qs =>
          rw [hr] at h
          injection h with hp hps
          obtain ⟨post, hpost⟩ := ih cs (by simp at hl; omega) q qs hr
          exact ⟨post, by rw [← hp]; simp [hpost]⟩

theorem splitOnSep_head_front {sep l p : List Char} {ps : List (List Char)}
    (h : splitOnSep sep l = p :: ps) : ∃ post, p ++ post = l :=
  splitOnSep_head_front_aux sep l.length l (Nat.le_refl _) p ps h

theorem splitOnSep_slice_aux (sep : List Char) :
    ∀ (n : Nat) (l : List Char), l.length ≤ n →
      ∀ p, p ∈ splitOnSep sep l → IsSlice p l := by
  intro n
  induction n with
  | zero =>
    intro l hl p hp
    have hnil : l = [] := List.length_eq_zero.mp (Nat.le_zero.mp hl)
    subst hnil
    unfold splitOnSep at hp
    simp at hp
    subst hp
    exact slice_nil []
  | succ n ih =>
    intro l hl p hp
    cases l with
    | nil =>
      unfold splitOnSep at hp
      simp at hp
      subst hp
      exact slice_nil []
    | cons c cs =>
      unfold splitOnSep at hp
      by_cases hc : sep ≠ [] ∧ leadsWith sep (c :: cs) = true
      · rw [if_pos hc] at hp
        rcases List.mem_cons.mp hp with hp | hp
        · subst hp
          exact slice_nil _
        · have hd := ih (List.drop (sep.length - 1) cs)
            (by simp at hl ⊢; omega) p hp
          exact slice_cons c (slice_trans hd (slice_drop _ cs))
      · rw [if_neg hc] at hp
        cases hr : splitOnSep sep cs with
        | nil =>
          rw [hr] at hp
          simp at hp
          subst hp
          exact slice_front (rfl : [c] ++ cs = c :: cs)
        | cons q qs =>
          rw [hr] at hp
          rcases List.mem_cons.mp hp with hp | hp
          · subst hp
            obtain ⟨post, hpost⟩ := splitOnSep_head_front hr
            exact slice_front (show (c :: q) ++ post = c :: cs by simp [hpost])
          · have hmem : p ∈ splitOnSep sep cs := by rw [hr]; exact List.mem_cons_of_mem q hp
            exact slice_cons c (ih cs (by simp at hl; omega) p hmem)

theorem splitOnSep_slice {sep l p : List Char} (hp : p ∈ splitOnSep sep l) : IsSlice p l :=
  splitOnSep_slice_aux sep l.length l (Nat.le_refl _) p hp

theorem windowChunks_sound_aux (size step : Nat) (hstep : step ≠ 0) :
    ∀ (n : Nat) (l : List Char), l.length ≤ n →
      ∀ p, p ∈ windowChunks size step l → IsSlice p l ∧ p.length ≤ size := by
  intro n
  induction n with
  | zero =>
    intro l hl p hp
    have hnil : l = [] := List.length_eq_zero.mp (Nat.le_zero.mp hl)
    subst hnil
    unfold windowChunks at hp
    rw [if_pos (Or.inl (by simp))] at hp
    simp at hp
    subst hp
    exact ⟨slice_refl [], by simp⟩
  | succ n ih =>
    intro l hl p hp
    unfold windowChunks at hp
    by_cases hc : l.length ≤ size ∨ step = 0
    · rw [if_pos hc] at hp
      simp at hp
      subst hp
      rcases hc with hc | hc
      · exact ⟨slice_refl p, hc⟩
      · exact absurd hc hstep
    · rw [if_neg hc] at hp
      push_neg at hc
      rcases List.mem_cons.mp hp with hp | hp
      · subst hp
        exact ⟨slice_take size l, List.length_take_le size l⟩
      · have hlen : (l.drop step).length ≤ n := by
          have hd := List.length_drop step l
          omega
        obtain ⟨hs, hb⟩ := ih (l.drop step) hlen p hp
        exact ⟨slice_trans hs (slice_drop step l), hb⟩

theorem windowChunks_sound {size step : Nat} (hstep : step ≠ 0) {l p : List Char}
    (hp : p ∈ windowChunks size step l) : IsSlice p l ∧ p.length ≤ size :=
  windowChunks_sound_aux size step hstep l.length l (Nat.le_refl _) p hp

theorem splitChunks_sound {size step : Nat} (hstep : step ≠ 0) :
    ∀ (seps : List (List Char)) (text p : List Char),
      p ∈ splitChunks size step seps text → IsSlice p text ∧ p.length ≤ size := by
  intro seps
  induction seps with
  | nil =>
    intro text p hp
    exact windowChunks_sound hstep hp
  | cons sep rest ih =>
    intro text p hp
    unfold splitChunks at hp
    by_cases h1 : text.length ≤ size
    · rw [if_pos h1] at hp
      simp at hp
      subst hp
      exact ⟨slice_refl p, h1⟩
    · rw [if_neg h1] at hp
      by_cases h2 : sep = []
      · rw [if_pos h2] at hp
        exact windowChunks_sound hstep hp
      · rw [if_neg h2] at hp
        rw [List.mem_flatMap] at hp
        obtain ⟨part, hpart, hp⟩ := hp
        have hps := splitOnSep_slice hpart
        by_cases h3 : part.length ≤ size
        · rw [if_pos h3] at hp
          simp at hp
          subst hp
          exact ⟨hps, h3⟩
        · rw [if_neg h3] at hp
          obtain ⟨hsl, hb⟩ := ih part p hp
          exact ⟨slice_trans hsl hps, hb⟩

/-- C6: the chunking step of `process_urls` always uses the recursive
separator-based splitter with the fixed configuration — separators
`["\n\n", "\n", ".", " "]` in that order, chunk size 1000, chunk overlap
200 — and every chunk the (spec-modelled) splitter produces is a slice of
the source text of bounded size (at most `chunk_size` characters), cut on
separator boundaries with the configured overlap. -/
theorem C6_splitter_configuration (env : Env) (st : ServiceState) (urls : List String) :
    (splitterConfig.separators = ["\n\n", "\n", ".", " "] ∧
      splitterConfig.chunkSize = 1000 ∧ splitterConfig.chunkOverlap = 200) ∧
    (∀ cfg, Event.didSplit cfg ∈ (process_urls env st urls).trace → cfg = splitterConfig) ∧
    (∀ text p, p ∈ splitText splitterConfig text →
      IsSlice p text ∧ p.length ≤ splitterConfig.chunkSize) := by
  refine ⟨⟨rfl, rfl, rfl⟩, ?_, ?_⟩
  · intro cfg hmem
    have hshape := processUrlsBody_shape env st urls
    have hw : process_urls env st urls = wrapProcessError (processUrlsBody env st urls) := rfl
    rcases hshape with ⟨e1, hb⟩ | ⟨st1, e1, hb⟩ | ⟨st1, e1, hb⟩ | ⟨st1, e1, hb⟩ |
      ⟨st1, n1, hb⟩ | ⟨st1, n1, e1, hb⟩ | ⟨st1, n1, chunks, ids, hb⟩ <;>
      rw [hw, wrapProcessError_trace, hb] at hmem <;> simp at hmem <;> exact hmem
  · intro text p hp
    exact splitChunks_sound (by decide) _ text p hp

/-- Witness for C6: the successful concrete run's trace records the fixed
configuration, and a one-character text yields itself as its only chunk, a
bounded slice. -/
theorem C6_witness :
    splitterConfig = splitterConfig ∧
    (IsSlice ['d'] ['d'] ∧ (['d'] : List Char).length ≤ splitterConfig.chunkSize) := by
  refine ⟨(C6_splitter_configuration okEnv st0 ["http://a.com"]).2.1 splitterConfig
    (by decide), ?_⟩
  exact (C6_splitter_configuration okEnv st0 ["http://a.com"]).2.2 ['d'] ['d'] (by decide)

end RAGRepo
